import Mathlib

attribute [local semireducible] Rat.add Rat.mul Rat.sub Rat.inv Rat.ofScientific

set_option maxRecDepth 400000

/-!
Shallow embedding of the esp32-fft spectrum analyzer (Rust sources:
`src/main.rs`, `src/constants.rs`, `src/web_server.rs`, `src/display.rs`).

Machine floats (`f32`) are modelled as exact rationals `ℚ`, machine
`u64`/`usize` as `ℕ`.  The FFT itself (rustfft) and the `Complex::norm`
square root are external numeric primitives; all claims below are about
the pipeline from the magnitude spectrum onwards, so a spectrum is
modelled as a function `ℕ → ℚ` giving the magnitude of each bin.
-/

namespace ESP32FFT

/-! ## Constants (`src/constants.rs`) -/

/-- Constant `SAMPLING_RATE: u32 = 48000` (Hz). -/
def SAMPLING_RATE : ℚ := 48000

/-- Constant `FFT_LENGTH: usize = 2048`. -/
def FFT_LENGTH : ℕ := 2048

/-- Constant `FREQUENCY_MAGNITUDE_LENGHT: usize = FFT_LENGTH / 2` (sic, source spelling). -/
def FREQUENCY_MAGNITUDE_LENGHT : ℕ := FFT_LENGTH / 2

/-- Constant `FFT_LENGTH_BYTES: usize = FFT_LENGTH * 4`. -/
def FFT_LENGTH_BYTES : ℕ := FFT_LENGTH * 4

/-- Constant `FREQ_BIN_WIDTH: f32 = SAMPLING_RATE as f32 / FFT_LENGTH as f32` = 23.4375 Hz. -/
def FREQ_BIN_WIDTH : ℚ := SAMPLING_RATE / (FFT_LENGTH : ℚ)

/-- Struct `AmplitudeThreshold` from `src/constants.rs`. -/
structure AmplitudeThreshold where
  frequency_cutoff : ℚ
  low_freq_threshold : ℚ
  high_freq_threshold : ℚ

/-- Constant `AMPLITUDE_THRESHOLD`: cutoff 1000 Hz, both band thresholds 0.0005. -/
def AMPLITUDE_THRESHOLD : AmplitudeThreshold :=
  { frequency_cutoff := 1000
    low_freq_threshold := 5 / 10000
    high_freq_threshold := 5 / 10000 }

/-- Constant `IMPULSE_THRESHOLD: f32 = 0.0012`. -/
def IMPULSE_THRESHOLD : ℚ := 12 / 10000

/-- Constant `IMPULSE_TIME_THRESHOLD: u64 = 100` (ms). -/
def IMPULSE_TIME_THRESHOLD : ℕ := 100

/-- Struct `PeakData` from `src/constants.rs`. -/
structure PeakData where
  index : ℕ
  frequency : ℚ
  magnitude : ℚ
deriving DecidableEq

/-- Struct `ImpulseData` from `src/constants.rs` (`coconut_type` is the label). -/
structure ImpulseData where
  timestamp : ℕ
  dominant_frequency : ℚ
  peaks : List PeakData
  coconut_type : String
deriving DecidableEq

/-! ## Classification (`src/main.rs` lines 276–284)

Rust's `(a..=b).contains(&f)` on floats is `a ≤ f ∧ f ≤ b`. -/

/-- The coconut-type classifier: the `if (1900.0..=2800.0).contains(&frequency) …`
chain of `src/main.rs`. -/
def classifyCoconut (frequency : ℚ) : String :=
  if 1900 ≤ frequency ∧ frequency ≤ 2800 then "BROWN COCONUT"
  else if 700 ≤ frequency ∧ frequency ≤ 899 then "FLESHY COCONUT"
  else if 900 ≤ frequency ∧ frequency ≤ 1700 then "WATER COCONUT"
  else "UNKNOWN"

/-! ## Peak scan and parabolic interpolation (`src/main.rs` lines 199–231) -/

/-- Per-bin adaptive threshold: the bin's center frequency `i * FREQ_BIN_WIDTH`
is compared against `AMPLITUDE_THRESHOLD.frequency_cutoff`. -/
def thresholdFor (i : ℕ) : ℚ :=
  if (i : ℚ) * FREQ_BIN_WIDTH < AMPLITUDE_THRESHOLD.frequency_cutoff then
    AMPLITUDE_THRESHOLD.low_freq_threshold
  else
    AMPLITUDE_THRESHOLD.high_freq_threshold

/-- The max-tracking scan over all `FREQUENCY_MAGNITUDE_LENGHT` bins:
`if magnitudes[i] > threshold && magnitudes[i] > max_mag { max_mag = …; max_index = i }`,
starting from `max_mag = 0.0, max_index = 0`.  Returns `(max_mag, max_index)`. -/
def peakScan (mags : ℕ → ℚ) : ℚ × ℕ :=
  (List.range FREQUENCY_MAGNITUDE_LENGHT).foldl
    (fun acc i => if thresholdFor i < mags i ∧ acc.1 < mags i then (mags i, i) else acc)
    (0, 0)

/-- The quadratic-interpolation refinement of the dominant frequency
(`src/main.rs` lines 214–231). -/
def dominantFrequency (mags : ℕ → ℚ) : ℚ :=
  match peakScan mags with
  | (max_mag, max_index) =>
    if 0 < max_mag then
      if 0 < max_index ∧ max_index < FREQUENCY_MAGNITUDE_LENGHT - 1 then
        if mags (max_index - 1) - 2 * mags max_index + mags (max_index + 1) ≠ 0 then
          ((max_index : ℚ) + (1 / 2) * (mags (max_index - 1) - mags (max_index + 1)) /
            (mags (max_index - 1) - 2 * mags max_index + mags (max_index + 1))) *
            FREQ_BIN_WIDTH
        else
          (max_index : ℚ) * FREQ_BIN_WIDTH
      else
        (max_index : ℚ) * FREQ_BIN_WIDTH
    else
      0

/-! ## Harmonic peak extraction (`find_peaks`, `src/main.rs` lines 325–370)

Rust's running maximum starts at `f32::NEG_INFINITY`; it is modelled as
`Option ℚ` with `none` playing the role of `-∞`. -/

/-- Comparison `magnitudes[j] > max_val` with `max_val : Option ℚ` (`none` = `NEG_INFINITY`). -/
def beatsMax (x : ℚ) : Option ℚ → Bool
  | none => true
  | some v => decide (v < x)

/-- Comparison `max_val > 0.0` with `max_val : Option ℚ` (`NEG_INFINITY > 0.0` is false). -/
def posVal : Option ℚ → Bool
  | none => false
  | some v => decide (0 < v)

/-- One inner scan of `find_peaks`: fold
`if magnitudes[j] > max_val && !result.contains(&j) { max_val = magnitudes[j]; max_idx = j }`
over the index list `idxs`, starting from `(init, NEG_INFINITY)`. -/
def scanMax (mags : ℕ → ℚ) (result : List ℕ) (init : ℕ) (idxs : List ℕ) : ℕ × Option ℚ :=
  idxs.foldl
    (fun acc j => if beatsMax (mags j) acc.2 ∧ j ∉ result then (j, some (mags j)) else acc)
    (init, none)

/-- One iteration of the "before dominant peak" loop of `find_peaks`:
scan `[start_index, dominant_index)` and push the winner if `max_val > 0.0`. -/
def lowerScanStep (mags : ℕ → ℚ) (start_index dominant_index : ℕ) (result : List ℕ) :
    List ℕ :=
  let sm := scanMax mags result start_index
    (List.range' start_index (dominant_index - start_index))
  if posVal sm.2 then result ++ [sm.1] else result

/-- One iteration of the "after dominant peak" loop of `find_peaks`:
scan `(current_idx, end_index]` and push the winner if it advanced and `max_val > 0.0`. -/
def upperScanStep (mags : ℕ → ℚ) (end_index : ℕ) (st : List ℕ × ℕ) : List ℕ × ℕ :=
  let sm := scanMax mags st.1 st.2 (List.range' (st.2 + 1) (end_index + 1 - (st.2 + 1)))
  if st.2 < sm.1 ∧ posVal sm.2 then (st.1 ++ [sm.1], sm.1) else st

/-- The first `for _ in 0..range` loop of `find_peaks`: starting from
`result = vec![dominant_index]`, run 5 lower scans over the fixed window
`[dominant_index − 25, dominant_index)` (clamped at 0, which is what
`(dominant_index as i32 - 25).max(0)` gives and ℕ-subtraction models). -/
def lowerLoop (mags : ℕ → ℚ) (dominant_index : ℕ) : List ℕ :=
  (List.range 5).foldl
    (fun r _ => lowerScanStep mags (dominant_index - 25) dominant_index r)
    [dominant_index]

/-- The second `for _ in 0..range` loop of `find_peaks`: 5 upper scans
advancing `current_idx` from the last accepted peak, bounded by
`end_index = min(dominant_index + 25, FREQUENCY_MAGNITUDE_LENGHT − 1)`. -/
def upperLoop (mags : ℕ → ℚ) (dominant_index : ℕ) : List ℕ :=
  ((List.range 5).foldl
    (fun st _ =>
      upperScanStep mags (min (dominant_index + 25) (FREQUENCY_MAGNITUDE_LENGHT - 1)) st)
    (lowerLoop mags dominant_index, dominant_index)).1

/-- Function `find_peaks(magnitudes, dominant_index)` from `src/main.rs`: the two
scan loops followed by the ascending `result.sort()`. -/
def find_peaks (mags : ℕ → ℚ) (dominant_index : ℕ) : List ℕ :=
  List.insertionSort (· ≤ ·) (upperLoop mags dominant_index)

/-! ## Impulse detection (`src/main.rs` lines 233–301)

The `static mut PREV_MAGNITUDE_SUM / LAST_IMPULSE_TIME` pair is modelled as
explicit state threaded through the per-frame step. -/

/-- The two `static mut` cells of the impulse detector. -/
structure ImpulseState where
  prevMagnitudeSum : ℚ
  lastImpulseTime : ℕ
deriving DecidableEq

/-- Initial values of the statics: `0.0` and `0`. -/
def initImpulseState : ImpulseState := { prevMagnitudeSum := 0, lastImpulseTime := 0 }

/-- Sum `magnitudes.iter().sum()` over all bins. -/
def magSum (mags : ℕ → ℚ) : ℚ :=
  (List.range FREQUENCY_MAGNITUDE_LENGHT).foldl (fun a i => a + mags i) 0

/-- The three-way trigger condition of the impulse check
(`src/main.rs` lines 248–252): the magnitude-sum delta computed against
the previous frame's sum, the refractory window, and the low-frequency
rumble filter.  `now - lastImpulseTime` is `u64` subtraction, modelled by
ℕ-subtraction (the clock is monotone, so no wrap occurs). -/
def impulseTrigger (s : ImpulseState) (mags : ℕ → ℚ) (now : ℕ) : Prop :=
  IMPULSE_THRESHOLD < |magSum mags - s.prevMagnitudeSum| ∧
  IMPULSE_TIME_THRESHOLD < now - s.lastImpulseTime ∧
  100 < dominantFrequency mags

instance impulseTriggerDec (s : ImpulseState) (mags : ℕ → ℚ) (now : ℕ) :
    Decidable (impulseTrigger s mags now) :=
  inferInstanceAs (Decidable (_ ∧ _ ∧ _))

/-- Event data `ImpulseData` built on a trigger (`src/main.rs` lines 257–300):
harmonic peaks from `find_peaks` around the dominant bin, each carrying
its raw bin-center frequency `idx * FREQ_BIN_WIDTH`, plus the refined
dominant frequency and its classification. -/
def mkImpulseEvent (mags : ℕ → ℚ) (now : ℕ) : ImpulseData :=
  { timestamp := now
    dominant_frequency := dominantFrequency mags
    peaks := (find_peaks mags (peakScan mags).2).map
      (fun idx => { index := idx, frequency := (idx : ℚ) * FREQ_BIN_WIDTH,
                    magnitude := mags idx : PeakData })
    coconut_type := classifyCoconut (dominantFrequency mags) }

/-- One frame of the impulse-detection logic (`src/main.rs` lines 233–301):
`PREV_MAGNITUDE_SUM` is updated unconditionally every frame;
`LAST_IMPULSE_TIME` is updated and an event emitted exactly when the
trigger condition holds. -/
def processFrameImpulse (s : ImpulseState) (mags : ℕ → ℚ) (now : ℕ) :
    ImpulseState × Option ImpulseData :=
  if impulseTrigger s mags now then
    ({ prevMagnitudeSum := magSum mags, lastImpulseTime := now },
     some (mkImpulseEvent mags now))
  else
    ({ prevMagnitudeSum := magSum mags, lastImpulseTime := s.lastImpulseTime }, none)

/-- Run the impulse detector over a list of frames `(magnitudes, now)`,
collecting the emitted events in order. -/
def runFrames : ImpulseState → List ((ℕ → ℚ) × ℕ) → ImpulseState × List ImpulseData
  | s, [] => (s, [])
  | s, f :: fs =>
    ((runFrames (processFrameImpulse s f.1 f.2).1 fs).1,
     (processFrameImpulse s f.1 f.2).2.toList ++
       (runFrames (processFrameImpulse s f.1 f.2).1 fs).2)

/-! ## Frame accumulation (`src/main.rs` lines 154–171)

The inner `while acc_index < FFT_LENGTH_BYTES` loop over successive
`i2s.read` results.  A read result is `some bytes_read` for `Ok` and
`none` for `Err` (on which the loop `break`s, keeping `acc_index`). -/

/-- Run the accumulation `while` loop on a list of read results:
while `acc_index < FFT_LENGTH_BYTES`, take the next read; on `Ok bytes_read`
copy `min bytes_read (FFT_LENGTH_BYTES - acc_index)` bytes; on `Err` break. -/
def accumulate : ℕ → List (Option ℕ) → ℕ
  | acc_index, [] => acc_index
  | acc_index, r :: rs =>
    if acc_index < FFT_LENGTH_BYTES then
      match r with
      | some bytes_read => accumulate (acc_index + min bytes_read (FFT_LENGTH_BYTES - acc_index)) rs
      | none => acc_index
    else acc_index

/-! ## Shared state and the main loop (`src/main.rs` lines 28–33, 62–70, 121–322)

`FFTData` is the snapshot type behind `Arc<RwLock<Arc<FFTData>>>`.  The
producer never mutates a published `Arc<FFTData>`: every write to the
shared cell stores a freshly built complete snapshot, so the cell's value
history is a sequence of whole snapshots; a reader's single
`read_guard.clone()` (`src/web_server.rs` lines 84–87, `src/display.rs`
lines 117–120) captures one element of that history.  The model therefore
records the `history` of all snapshots ever stored in the cell.

The magnitude spectrum a completed frame produces comes from the external
FFT of the accumulated bytes; it enters the model as the `mags` component
of the iteration's input, together with the `esp_timer` reading `now`. -/

/-- Shared-state struct `FFTData` of `src/main.rs`. -/
structure FFTData where
  magnitudes : ℕ → ℚ
  dominant_frequency : ℚ
  is_recording : Bool
  latest_impulse : Option ImpulseData

/-- The initial snapshot installed at startup (`src/main.rs` lines 65–70). -/
def initialFFTData : FFTData :=
  { magnitudes := fun _ => 0, dominant_frequency := 0, is_recording := false,
    latest_impulse := none }

/-- Producer-side state of the main loop: the recording toggle, the
previous button level (`true` = `Level::High`), the accumulator index, the
impulse-detector statics, the currently published snapshot, and the full
history of snapshots ever published (oldest first). -/
structure LoopState where
  recording_enabled : Bool
  previous_button_state : Bool
  acc_index : ℕ
  impulse : ImpulseState
  published : FFTData
  history : List FFTData

/-- The state at entry to the main loop (`src/main.rs` lines 62–70, 115–117):
not recording, previous button level `High`, empty accumulator, zeroed
impulse statics, initial snapshot published. -/
def initLoopState : LoopState :=
  { recording_enabled := false, previous_button_state := true, acc_index := 0,
    impulse := initImpulseState, published := initialFFTData,
    history := [initialFFTData] }

/-- External input consumed by one iteration of the main loop: the current
button level (`true` = `High`), the `i2s.read` results the inner loop will
see, the magnitude spectrum the FFT yields if a frame completes, and the
millisecond timestamp of that frame. -/
structure LoopInput where
  button : Bool
  reads : List (Option ℕ)
  mags : ℕ → ℚ
  now : ℕ

/-- The snapshot published on a button press (`src/main.rs` lines 138–148):
the current magnitudes and dominant frequency are copied over, the
recording flag becomes the toggled value, and `latest_impulse` is `None`. -/
def pressSnapshot (s : LoopState) : FFTData :=
  { magnitudes := s.published.magnitudes,
    dominant_frequency := s.published.dominant_frequency,
    is_recording := !s.recording_enabled, latest_impulse := none }

/-- Button handling at the top of each loop iteration
(`src/main.rs` lines 122–152): on a `High → Low` edge, toggle
`recording_enabled`, reset `acc_index` when stopping, and publish
`pressSnapshot`; then `previous_button_state` is updated. -/
def buttonPhase (s : LoopState) (button : Bool) : LoopState :=
  if s.previous_button_state = true ∧ button = false then
    { s with recording_enabled := !s.recording_enabled,
             acc_index := if !s.recording_enabled then s.acc_index else 0,
             published := pressSnapshot s,
             history := s.history ++ [pressSnapshot s],
             previous_button_state := button }
  else
    { s with previous_button_state := button }

/-- The snapshot published after a completed frame
(`src/main.rs` lines 303–308): the frame's magnitudes, their refined
dominant frequency, `is_recording: true`, and the impulse result. -/
def frameSnapshot (mags : ℕ → ℚ) (ev : Option ImpulseData) : FFTData :=
  { magnitudes := mags, dominant_frequency := dominantFrequency mags,
    is_recording := true, latest_impulse := ev }

/-- Capture/processing part of a loop iteration (`src/main.rs` lines 154–321):
when recording, run the accumulation loop; if the buffer is full, process
the frame (impulse detection on the FFT spectrum), publish `frameSnapshot`,
and reset `acc_index`; when idle, only sleep. -/
def capturePhase (s : LoopState) (inp : LoopInput) : LoopState :=
  if s.recording_enabled then
    if FFT_LENGTH_BYTES ≤ accumulate s.acc_index inp.reads then
      { s with acc_index := 0,
               impulse := (processFrameImpulse s.impulse inp.mags inp.now).1,
               published :=
                 frameSnapshot inp.mags (processFrameImpulse s.impulse inp.mags inp.now).2,
               history := s.history ++
                 [frameSnapshot inp.mags (processFrameImpulse s.impulse inp.mags inp.now).2] }
    else
      { s with acc_index := accumulate s.acc_index inp.reads }
  else s

/-- One full iteration of the main loop. -/
def loopStep (s : LoopState) (inp : LoopInput) : LoopState :=
  capturePhase (buttonPhase s inp.button) inp

/-- Run the main loop over a list of iteration inputs. -/
def loopRun (s : LoopState) (inps : List LoopInput) : LoopState :=
  inps.foldl loopStep s

/-! ## Concrete test inputs used by witnesses -/

/-- A sparse test spectrum: an asymmetric peak at bin 100
(`y_99 = 0.001`, `y_100 = 0.01`, `y_101 = 0.002`, everything else 0). -/
def testMags : ℕ → ℚ := fun i =>
  if i = 99 then 1 / 1000 else if i = 100 then 1 / 100 else
  if i = 101 then 1 / 500 else 0

/-- Spectrum `testMags` scaled by 3: same dominant bin and refined frequency shape,
different magnitude sum (so the frame-to-frame delta qualifies again). -/
def testMags3 : ℕ → ℚ := fun i => 3 * testMags i

/-- A loop-iteration input with the button held down (`Level::Low`) and
nothing captured. -/
def pressInput : LoopInput := { button := false, reads := [], mags := fun _ => 0, now := 0 }

/-- A loop-iteration input with the button released (`Level::High`) and
nothing captured. -/
def releaseInput : LoopInput := { button := true, reads := [], mags := fun _ => 0, now := 0 }

/-- A full `Idle → Recording → Idle` button cycle ending with the button
released, leaving the system idle again. -/
def cycleInputs : List LoopInput := [pressInput, releaseInput, pressInput, releaseInput]

/-- The concrete impulse event the detector emits for `testMags` at
`now = 200` from the initial detector state (value checked by `decide`). -/
def evC : ImpulseData :=
  { timestamp := 200, dominant_frequency := 1275375 / 544,
    peaks := [{ index := 99, frequency := 37125 / 16, magnitude := 1 / 1000 },
              { index := 100, frequency := 9375 / 4, magnitude := 1 / 100 },
              { index := 101, frequency := 37875 / 16, magnitude := 1 / 500 }],
    coconut_type := "BROWN COCONUT" }

/-- The producer-side invariant of the main loop: an idle loop has an
empty accumulator; every snapshot ever published with `is_recording =
false` carries no impulse; and every snapshot ever published (the current
one included) pairs its magnitudes with their own dominant frequency. -/
def GoodState (s : LoopState) : Prop :=
  (s.recording_enabled = false → s.acc_index = 0) ∧
  (∀ snap ∈ s.history, snap.is_recording = false → snap.latest_impulse = none) ∧
  (∀ snap ∈ s.history, snap.dominant_frequency = dominantFrequency snap.magnitudes) ∧
  s.published.dominant_frequency = dominantFrequency s.published.magnitudes

/-! ## Helper lemmas -/

/-- A predicate preserved by every step of a fold holds of the fold's result. -/
theorem foldl_invariant {α β : Type} (P : α → Prop) (f : α → β → α)
    (l : List β) (h : ∀ a b, P a → P (f a b)) :
    ∀ a, P a → P (l.foldl f a) := by
  induction l with
  | nil => exact fun a ha => ha
  | cons x xs ih => exact fun a ha => ih _ (h _ _ ha)

/-! ## C1: classification bands -/

/-- C1 counterexample: the claim asserts the half-open bands `[700,899)` and
`[900,1700)`, with 899 Hz and 1700 Hz falling outside the B and C bands and
classified `"UNKNOWN"`.  The code uses Rust inclusive ranges
`(700.0..=899.0)` and `(900.0..=1700.0)`, so 899 Hz is classified
`"FLESHY COCONUT"` and 1700 Hz is classified `"WATER COCONUT"`. -/
theorem C1_counterexample :
    classifyCoconut 899 = "FLESHY COCONUT" ∧ classifyCoconut 1700 = "WATER COCONUT" := by
  constructor <;> decide

/-- C1 (amended): the classifier maps `[1900,2800]` to `"BROWN COCONUT"`,
the closed range `[700,899]` to `"FLESHY COCONUT"`, the closed range
`[900,1700]` to `"WATER COCONUT"`, and every other frequency — the gaps
`(899,900)`, `(1700,1900)`, `(2800,∞)` and everything below 700 — to
`"UNKNOWN"`; in particular 899 Hz and 1700 Hz fall inside the B and C
bands respectively. -/
theorem C1_classification (f : ℚ) :
    (1900 ≤ f ∧ f ≤ 2800 → classifyCoconut f = "BROWN COCONUT") ∧
    (700 ≤ f ∧ f ≤ 899 → classifyCoconut f = "FLESHY COCONUT") ∧
    (900 ≤ f ∧ f ≤ 1700 → classifyCoconut f = "WATER COCONUT") ∧
    (¬(1900 ≤ f ∧ f ≤ 2800) → ¬(700 ≤ f ∧ f ≤ 899) → ¬(900 ≤ f ∧ f ≤ 1700) →
      classifyCoconut f = "UNKNOWN") := by
  unfold classifyCoconut
  refine ⟨?_, ?_, ?_, ?_⟩
  · rintro ⟨h1, h2⟩
    rw [if_pos ⟨h1, h2⟩]
  · rintro ⟨h1, h2⟩
    rw [if_neg (fun hc => by linarith [hc.1]), if_pos ⟨h1, h2⟩]
  · rintro ⟨h1, h2⟩
    rw [if_neg (fun hc => by linarith [hc.1]), if_neg (fun hc => by linarith [hc.2]),
      if_pos ⟨h1, h2⟩]
  · intro h1 h2 h3
    rw [if_neg h1, if_neg h2, if_neg h3]

/-- C1 witness: 2400 Hz is `"A"`, 899 Hz and 1700 Hz are the upper ends of
the closed `"B"` and `"C"` bands, and 1800 Hz sits in a gap. -/
theorem C1_classification_witness :
    classifyCoconut 2400 = "BROWN COCONUT" ∧ classifyCoconut 899 = "FLESHY COCONUT" ∧
    classifyCoconut 1700 = "WATER COCONUT" ∧ classifyCoconut 1800 = "UNKNOWN" :=
  ⟨(C1_classification 2400).1 ⟨by norm_num, by norm_num⟩,
   (C1_classification 899).2.1 ⟨by norm_num, by norm_num⟩,
   (C1_classification 1700).2.2.1 ⟨by norm_num, by norm_num⟩,
   (C1_classification 1800).2.2.2 (by norm_num) (by norm_num) (by norm_num)⟩

/-- The second component of the branching pair built by the impulse check:
`isSome` holds exactly when the trigger condition does. -/
theorem isSome_ite_pair {α γ : Type} {c : Prop} [Decidable c] (a b : α) (x : γ) :
    ((if c then (a, some x) else (b, (none : Option γ))).2.isSome = true) ↔ c := by
  by_cases h : c
  · simp [if_pos h, h]
  · simp [if_neg h, h]

/-! ## C3: impulse trigger condition -/

/-- C3: a frame produces an `ImpulseData` if and only if all three trigger
conditions hold: the absolute magnitude-sum delta exceeds
`IMPULSE_THRESHOLD` (= 0.0012), the time since the last accepted impulse
exceeds `IMPULSE_TIME_THRESHOLD` (= 100 ms), and the refined dominant
frequency exceeds 100 Hz. -/
theorem C3_trigger_iff (s : ImpulseState) (mags : ℕ → ℚ) (now : ℕ) :
    IMPULSE_THRESHOLD = 12 / 10000 ∧ IMPULSE_TIME_THRESHOLD = 100 ∧
    ((processFrameImpulse s mags now).2.isSome = true ↔
      IMPULSE_THRESHOLD < |magSum mags - s.prevMagnitudeSum| ∧
      IMPULSE_TIME_THRESHOLD < now - s.lastImpulseTime ∧
      100 < dominantFrequency mags) := by
  exact ⟨rfl, rfl, isSome_ite_pair _ _ _⟩

/-! ## C6: frame accumulation -/

/-- C6: starting from an accumulated count within capacity, the
accumulation loop never exceeds `FFT_LENGTH_BYTES` (each read copies at
most the space left), the processing guard `acc ≥ FFT_LENGTH_BYTES` holds
exactly when the count is exactly `FFT_LENGTH_BYTES`, and a read error
leaves the accumulated count unchanged. -/
theorem C6_accumulation (acc : ℕ) (rs : List (Option ℕ)) (h : acc ≤ FFT_LENGTH_BYTES) :
    accumulate acc rs ≤ FFT_LENGTH_BYTES ∧
    (FFT_LENGTH_BYTES ≤ accumulate acc rs ↔ accumulate acc rs = FFT_LENGTH_BYTES) ∧
    (∀ rs2, accumulate acc (none :: rs2) = acc) := by
  have hle : accumulate acc rs ≤ FFT_LENGTH_BYTES := by
    induction rs generalizing acc with
    | nil => simpa [accumulate] using h
    | cons r rs ih =>
      unfold accumulate
      split
      · match r with
        | some n => exact ih _ (by omega)
        | none => exact h
      · exact h
  refine ⟨hle, ⟨fun hge => le_antisymm hle hge, fun he => he.ge⟩, fun rs2 => ?_⟩
  unfold accumulate
  split <;> rfl

/-- C6 witness: a single 9000-byte read into an empty buffer clamps to the
8192-byte capacity, the full-buffer guard is an equality, and an error
read preserves the count. -/
theorem C6_accumulation_witness :
    accumulate 0 [some 9000] ≤ FFT_LENGTH_BYTES ∧
    (FFT_LENGTH_BYTES ≤ accumulate 0 [some 9000] ↔
      accumulate 0 [some 9000] = FFT_LENGTH_BYTES) ∧
    accumulate 0 [none] = 0 := by
  obtain ⟨h1, h2, h3⟩ := C6_accumulation 0 [some 9000] (by decide)
  exact ⟨h1, h2, h3 []⟩

/-! ## C4: harmonic peak extraction -/

/-- The fold inside `scanMax` only ever selects an index outside `result`:
if the final running maximum is `some v`, the selected index was fresh. -/
theorem scanMax_go_not_mem (mags : ℕ → ℚ) (result : List ℕ) :
    ∀ (idxs : List ℕ) (acc : ℕ × Option ℚ),
      (∀ v, acc.2 = some v → acc.1 ∉ result) →
      ∀ v,
        (idxs.foldl
          (fun acc j =>
            if beatsMax (mags j) acc.2 ∧ j ∉ result then (j, some (mags j)) else acc)
          acc).2 = some v →
        (idxs.foldl
          (fun acc j =>
            if beatsMax (mags j) acc.2 ∧ j ∉ result then (j, some (mags j)) else acc)
          acc).1 ∉ result := by
  intro idxs
  induction idxs with
  | nil => intro acc h; exact h
  | cons j tl ih =>
    intro acc h
    simp only [List.foldl_cons]
    apply ih
    by_cases hc : (beatsMax (mags j) acc.2 = true) ∧ j ∉ result
    · rw [if_pos hc]; intro v _; exact hc.2
    · rw [if_neg hc]; exact h

/-- If `scanMax` ends with a `some` running maximum, its selected index is
not already in `result`. -/
theorem scanMax_not_mem (mags : ℕ → ℚ) (result : List ℕ) (init : ℕ) (idxs : List ℕ) :
    ∀ v, (scanMax mags result init idxs).2 = some v →
      (scanMax mags result init idxs).1 ∉ result :=
  scanMax_go_not_mem mags result idxs (init, none) (fun _ hv => by cases hv)

/-- Fact: `posVal o = true` forces `o = some v` with `0 < v`. -/
theorem posVal_eq_some (o : Option ℚ) (h : posVal o = true) : ∃ v, o = some v ∧ 0 < v := by
  cases o with
  | none => cases h
  | some v => exact ⟨v, rfl, by simpa [posVal] using h⟩

/-- One lower-scan iteration preserves no-duplicates and membership of the
dominant index. -/
theorem lowerScanStep_preserves (mags : ℕ → ℚ) (start dom d : ℕ) (r : List ℕ)
    (h : r.Nodup ∧ d ∈ r) :
    (lowerScanStep mags start dom r).Nodup ∧ d ∈ lowerScanStep mags start dom r := by
  obtain ⟨hnd, hd⟩ := h
  unfold lowerScanStep
  by_cases hp :
      posVal (scanMax mags r start (List.range' start (dom - start))).2 = true
  · rw [if_pos hp]
    obtain ⟨v, hv, -⟩ := posVal_eq_some _ hp
    have hnm := scanMax_not_mem mags r start (List.range' start (dom - start)) v hv
    exact ⟨hnd.append (List.nodup_singleton _) (List.disjoint_singleton.2 hnm),
      List.mem_append_left _ hd⟩
  · rw [if_neg hp]
    exact ⟨hnd, hd⟩

/-- One upper-scan iteration preserves no-duplicates and membership of the
dominant index. -/
theorem upperScanStep_preserves (mags : ℕ → ℚ) (endi d : ℕ) (st : List ℕ × ℕ)
    (h : st.1.Nodup ∧ d ∈ st.1) :
    (upperScanStep mags endi st).1.Nodup ∧ d ∈ (upperScanStep mags endi st).1 := by
  obtain ⟨hnd, hd⟩ := h
  unfold upperScanStep
  by_cases hp :
      (st.2 < (scanMax mags st.1 st.2 (List.range' (st.2 + 1) (endi + 1 - (st.2 + 1)))).1) ∧
      posVal (scanMax mags st.1 st.2 (List.range' (st.2 + 1) (endi + 1 - (st.2 + 1)))).2 = true
  · rw [if_pos hp]
    obtain ⟨v, hv, -⟩ := posVal_eq_some _ hp.2
    have hnm := scanMax_not_mem mags st.1 st.2 (List.range' (st.2 + 1) (endi + 1 - (st.2 + 1))) v hv
    exact ⟨hnd.append (List.nodup_singleton _) (List.disjoint_singleton.2 hnm),
      List.mem_append_left _ hd⟩
  · rw [if_neg hp]
    exact ⟨hnd, hd⟩

/-- The unsorted result of the two scan loops has no duplicates and
contains the dominant index. -/
theorem upperLoop_nodup_mem (mags : ℕ → ℚ) (d : ℕ) :
    (upperLoop mags d).Nodup ∧ d ∈ upperLoop mags d := by
  have hlow : (lowerLoop mags d).Nodup ∧ d ∈ lowerLoop mags d :=
    foldl_invariant (fun r : List ℕ => r.Nodup ∧ d ∈ r) _ (List.range 5)
      (fun r _ hr => lowerScanStep_preserves mags (d - 25) d d r hr) [d]
      ⟨List.nodup_singleton d, List.mem_singleton_self d⟩
  exact foldl_invariant (fun st : List ℕ × ℕ => st.1.Nodup ∧ d ∈ st.1) _ (List.range 5)
    (fun st _ hst =>
      upperScanStep_preserves mags (min (d + 25) (FREQUENCY_MAGNITUDE_LENGHT - 1)) d st hst)
    (lowerLoop mags d, d) hlow

/-- C4: `find_peaks` always returns a list that contains the dominant bin
index itself and whose elements are in strictly ascending order (hence
with no duplicate indices). -/
theorem C4_find_peaks (mags : ℕ → ℚ) (d : ℕ) :
    d ∈ find_peaks mags d ∧ List.Sorted (· < ·) (find_peaks mags d) := by
  have hP := upperLoop_nodup_mem mags d
  unfold find_peaks
  exact ⟨(List.mem_insertionSort _).mpr hP.2,
    (List.sorted_insertionSort _ _).lt_of_le
      (((List.perm_insertionSort (· ≤ ·) (upperLoop mags d)).symm).nodup hP.1)⟩

/-! ## C5: adaptive max scan and parabolic interpolation -/

/-- Unfolding: `dominantFrequency` written out on the result `(m, k)` of the peak scan. -/
theorem dominantFrequency_eq (mags : ℕ → ℚ) (m : ℚ) (k : ℕ) (h : peakScan mags = (m, k)) :
    dominantFrequency mags =
      if 0 < m then
        if 0 < k ∧ k < FREQUENCY_MAGNITUDE_LENGHT - 1 then
          if mags (k - 1) - 2 * mags k + mags (k + 1) ≠ 0 then
            ((k : ℚ) + (1 / 2) * (mags (k - 1) - mags (k + 1)) /
              (mags (k - 1) - 2 * mags k + mags (k + 1))) * FREQ_BIN_WIDTH
          else (k : ℚ) * FREQ_BIN_WIDTH
        else (k : ℚ) * FREQ_BIN_WIDTH
      else 0 := by
  unfold dominantFrequency
  rw [h]

/-- If no bin's magnitude exceeds its band threshold, the max scan keeps
its initial accumulator `(0, 0)`. -/
theorem peakScan_no_qualifier (mags : ℕ → ℚ)
    (h : ∀ i, i < FREQUENCY_MAGNITUDE_LENGHT → ¬ thresholdFor i < mags i) :
    peakScan mags = (0, 0) := by
  unfold peakScan
  have hgen : ∀ l : List ℕ, (∀ i ∈ l, ¬ thresholdFor i < mags i) →
      l.foldl
        (fun acc i => if thresholdFor i < mags i ∧ acc.1 < mags i then (mags i, i) else acc)
        ((0 : ℚ), (0 : ℕ)) = (0, 0) := by
    intro l
    induction l with
    | nil => intro _; rfl
    | cons j tl ih =>
      intro hl
      simp only [List.foldl_cons]
      rw [if_neg (fun hc => hl j (List.mem_cons_self j tl) hc.1)]
      exact ih (fun i hi => hl i (List.mem_cons_of_mem j hi))
  exact hgen (List.range FREQUENCY_MAGNITUDE_LENGHT) (fun i hi => h i (List.mem_range.mp hi))

/-- C5: with a qualifying maximum `(m, k)` (`0 < m`), the reported dominant
frequency is the parabolic refinement `(k + ½(y₋₁ − y₊₁)/denom) · binWidth`
when `k` is an interior bin and `denom ≠ 0`, the raw `k · binWidth` when
`denom = 0` or `k` is a boundary bin, and `0` when no bin exceeds its
band's threshold. -/
theorem C5_dominant_frequency (mags : ℕ → ℚ) :
    (∀ m k, peakScan mags = (m, k) → 0 < m →
      ((0 < k ∧ k < FREQUENCY_MAGNITUDE_LENGHT - 1 →
        (mags (k - 1) - 2 * mags k + mags (k + 1) ≠ 0 →
          dominantFrequency mags =
            ((k : ℚ) + (1 / 2) * (mags (k - 1) - mags (k + 1)) /
              (mags (k - 1) - 2 * mags k + mags (k + 1))) * FREQ_BIN_WIDTH) ∧
        (mags (k - 1) - 2 * mags k + mags (k + 1) = 0 →
          dominantFrequency mags = (k : ℚ) * FREQ_BIN_WIDTH)) ∧
       (¬(0 < k ∧ k < FREQUENCY_MAGNITUDE_LENGHT - 1) →
         dominantFrequency mags = (k : ℚ) * FREQ_BIN_WIDTH))) ∧
    ((∀ i, i < FREQUENCY_MAGNITUDE_LENGHT → ¬ thresholdFor i < mags i) →
      dominantFrequency mags = 0) := by
  constructor
  · intro m k hscan hm
    rw [dominantFrequency_eq mags m k hscan, if_pos hm]
    constructor
    · intro hint
      rw [if_pos hint]
      constructor
      · intro hd; rw [if_pos hd]
      · intro hd; rw [if_neg (not_not_intro hd)]
    · intro hint
      rw [if_neg hint]
  · intro h
    rw [dominantFrequency_eq mags 0 0 (peakScan_no_qualifier mags h), if_neg (lt_irrefl 0)]

/-- C5 witness: for the concrete asymmetric peak `testMags` at bin 100 the
refined formula applies, and the all-zero spectrum reports frequency 0. -/
theorem C5_dominant_frequency_witness :
    peakScan testMags = (1 / 100, 100) ∧
    dominantFrequency testMags =
      ((100 : ℚ) + (1 / 2) * (testMags 99 - testMags 101) /
        (testMags 99 - 2 * testMags 100 + testMags 101)) * FREQ_BIN_WIDTH ∧
    dominantFrequency (fun _ => 0) = 0 := by
  have hscan : peakScan testMags = (1 / 100, 100) := by decide
  refine ⟨hscan, ?_, ?_⟩
  · exact (((C5_dominant_frequency testMags).1 (1 / 100) 100 hscan (by norm_num)).1
      (by decide)).1 (by decide)
  · exact (C5_dominant_frequency (fun _ => 0)).2
      (fun i _ => by unfold thresholdFor; split <;> norm_num [AMPLITUDE_THRESHOLD])

/-! ## C2: refractory period / debounce -/

/-- On a trigger, the frame step records the frame time and emits the
event stamped with it. -/
theorem processFrameImpulse_pos (s : ImpulseState) (mags : ℕ → ℚ) (now : ℕ)
    (h : impulseTrigger s mags now) :
    processFrameImpulse s mags now =
      ({ prevMagnitudeSum := magSum mags, lastImpulseTime := now },
       some (mkImpulseEvent mags now)) := by
  unfold processFrameImpulse
  rw [if_pos h]

/-- Without a trigger, the frame step emits nothing and keeps
`lastImpulseTime`. -/
theorem processFrameImpulse_neg (s : ImpulseState) (mags : ℕ → ℚ) (now : ℕ)
    (h : ¬ impulseTrigger s mags now) :
    processFrameImpulse s mags now =
      ({ prevMagnitudeSum := magSum mags, lastImpulseTime := s.lastImpulseTime }, none) := by
  unfold processFrameImpulse
  rw [if_neg h]

/-- Core debounce induction: every emitted event is stamped more than the
refractory window after the start state's `lastImpulseTime` and no later
than the final `lastImpulseTime`; `lastImpulseTime` never decreases; and
emitted events are pairwise separated by more than the window. -/
theorem runFrames_debounce (s : ImpulseState) (frames : List ((ℕ → ℚ) × ℕ)) :
    (∀ e ∈ (runFrames s frames).2,
      s.lastImpulseTime + IMPULSE_TIME_THRESHOLD < e.timestamp ∧
      e.timestamp ≤ (runFrames s frames).1.lastImpulseTime) ∧
    s.lastImpulseTime ≤ (runFrames s frames).1.lastImpulseTime ∧
    (runFrames s frames).2.Pairwise
      (fun e1 e2 => e1.timestamp + IMPULSE_TIME_THRESHOLD < e2.timestamp) := by
  induction frames generalizing s with
  | nil => exact ⟨fun e he => absurd he (List.not_mem_nil e), le_refl _, List.Pairwise.nil⟩
  | cons f fs ih =>
    by_cases hc : impulseTrigger s f.1 f.2
    · have htime : s.lastImpulseTime + IMPULSE_TIME_THRESHOLD < f.2 := by
        have h21 := hc.2.1
        omega
      have hrw : runFrames s (f :: fs) =
          ((runFrames ⟨magSum f.1, f.2⟩ fs).1,
           mkImpulseEvent f.1 f.2 :: (runFrames ⟨magSum f.1, f.2⟩ fs).2) := by
        simp only [runFrames, processFrameImpulse_pos s f.1 f.2 hc, Option.toList_some,
          List.singleton_append]
      obtain ⟨ih1, ih2, ih3⟩ := ih ⟨magSum f.1, f.2⟩
      rw [hrw]
      refine ⟨?_, ?_, ?_⟩
      · intro e he
        rcases List.mem_cons.mp he with rfl | hmem
        · exact ⟨htime, ih2⟩
        · obtain ⟨h1, h2⟩ := ih1 e hmem
          have h1f : f.2 + IMPULSE_TIME_THRESHOLD < e.timestamp := h1
          exact ⟨by omega, h2⟩
      · show s.lastImpulseTime ≤
          (runFrames (⟨magSum f.1, f.2⟩ : ImpulseState) fs).1.lastImpulseTime
        have hle : f.2 ≤
            (runFrames (⟨magSum f.1, f.2⟩ : ImpulseState) fs).1.lastImpulseTime := ih2
        omega
      · exact List.Pairwise.cons (fun e he => (ih1 e he).1) ih3
    · have hrw : runFrames s (f :: fs) =
          ((runFrames ⟨magSum f.1, s.lastImpulseTime⟩ fs).1,
           (runFrames ⟨magSum f.1, s.lastImpulseTime⟩ fs).2) := by
        simp only [runFrames, processFrameImpulse_neg s f.1 f.2 hc, Option.toList_none,
          List.nil_append]
      obtain ⟨ih1, ih2, ih3⟩ := ih ⟨magSum f.1, s.lastImpulseTime⟩
      rw [hrw]
      exact ⟨fun e he => ih1 e he, ih2, ih3⟩

/-- Folding `+ mags i` over a range of indices where `mags` vanishes
leaves the accumulator unchanged. -/
theorem foldl_add_range'_zero (mags : ℕ → ℚ) :
    ∀ (n s : ℕ), (∀ i, s ≤ i → i < s + n → mags i = 0) →
      ∀ a : ℚ, (List.range' s n).foldl (fun a i => a + mags i) a = a := by
  intro n
  induction n with
  | zero => intro s _ a; rfl
  | succ n ih =>
    intro s h a
    rw [List.range'_succ, List.foldl_cons, h s (le_refl s) (by omega), add_zero]
    exact ih (s + 1) (fun i h1 h2 => h i (by omega) (by omega)) a

/-- The magnitude sum of a spectrum supported on bins 99–101. -/
theorem magSum_support3 (mags : ℕ → ℚ)
    (h0 : ∀ i, i ≠ 99 → i ≠ 100 → i ≠ 101 → mags i = 0) :
    magSum mags = mags 99 + mags 100 + mags 101 := by
  have h1 : List.range' 0 99 ++ List.range' 99 3 = List.range' 0 102 :=
    List.range'_append_1 0 99 3
  have h2 : List.range' 0 102 ++ List.range' 102 922 = List.range' 0 1024 :=
    List.range'_append_1 0 102 922
  have hsplit : List.range FREQUENCY_MAGNITUDE_LENGHT =
      (List.range' 0 99 ++ List.range' 99 3) ++ List.range' 102 922 := by
    rw [List.range_eq_range']
    show List.range' 0 1024 = _
    rw [h1, h2]
  have hmid : List.range' 99 3 = [99, 100, 101] := rfl
  unfold magSum
  rw [hsplit, List.foldl_append, List.foldl_append,
    foldl_add_range'_zero mags 99 0 (fun i hl hr => h0 i (by omega) (by omega) (by omega)),
    hmid]
  simp only [List.foldl_cons, List.foldl_nil]
  rw [foldl_add_range'_zero mags 922 102 (fun i hl hr => h0 i (by omega) (by omega) (by omega))]
  ring

/-- Value of `magSum` at the concrete test spectrum. -/
theorem magSum_testMags : magSum testMags = 13 / 1000 := by
  rw [magSum_support3 testMags (fun i h1 h2 h3 => by simp [testMags, h1, h2, h3])]
  norm_num [testMags]

/-- The refined dominant frequency of the concrete test spectrum. -/
theorem domFreq_testMags : dominantFrequency testMags = 1275375 / 544 := by
  rw [dominantFrequency_eq testMags (1 / 100) 100 (by decide)]
  norm_num [testMags, FREQ_BIN_WIDTH, SAMPLING_RATE, FFT_LENGTH, FREQUENCY_MAGNITUDE_LENGHT]

/-- The first concrete frame triggers the impulse detector. -/
theorem trigger_testMags : impulseTrigger initImpulseState testMags 200 := by
  refine ⟨?_, by decide, ?_⟩
  · rw [magSum_testMags]
    show IMPULSE_THRESHOLD < |13 / 1000 - (0 : ℚ)|
    rw [show |13 / 1000 - (0 : ℚ)| = 13 / 1000 by norm_num [abs_of_nonneg]]
    norm_num [IMPULSE_THRESHOLD]
  · rw [domFreq_testMags]
    norm_num

/-- The concrete two-frame run, 10 ms apart, emits exactly one event: the
second frame is blocked by the refractory window alone. -/
theorem runFrames_two_frames_one_event :
    (runFrames initImpulseState [(testMags, 200), (testMags3, 210)]).2.length = 1 := by
  have h2 : ¬ impulseTrigger ⟨magSum testMags, 200⟩ testMags3 210 := by
    intro h
    have h21 := h.2.1
    simp only [IMPULSE_TIME_THRESHOLD] at h21
    omega
  simp only [runFrames, processFrameImpulse_pos _ _ _ trigger_testMags,
    processFrameImpulse_neg _ _ _ h2, Option.toList_some, Option.toList_none,
    List.singleton_append, List.nil_append, List.length_cons, List.length_nil]

/-- C2: over any run of the detector, emitted events are pairwise more
than the 100 ms debounce window apart, however large the deltas; and the
concrete run of two qualifying frames 10 ms apart (timestamps 200 and
210) emits exactly one event. -/
theorem C2_debounce (s : ImpulseState) (frames : List ((ℕ → ℚ) × ℕ)) :
    (runFrames s frames).2.Pairwise
      (fun e1 e2 => e1.timestamp + IMPULSE_TIME_THRESHOLD < e2.timestamp) ∧
    (runFrames initImpulseState [(testMags, 200), (testMags3, 210)]).2.length = 1 :=
  ⟨(runFrames_debounce s frames).2.2, runFrames_two_frames_one_event⟩

/-! ## C7, C8, C9: the main-loop invariants -/

/-- The all-zero spectrum has no qualifying bin, so its dominant frequency
is 0. -/
theorem dominantFrequency_zero : dominantFrequency (fun _ => 0) = 0 := by
  rw [dominantFrequency_eq _ 0 0 (peakScan_no_qualifier _
    (fun i _ => by unfold thresholdFor; split <;> norm_num [AMPLITUDE_THRESHOLD])),
    if_neg (lt_irrefl 0)]

/-- The initial loop state satisfies the producer invariant. -/
theorem goodState_init : GoodState initLoopState := by
  refine ⟨fun _ => rfl, ?_, ?_, dominantFrequency_zero.symm⟩
  · intro snap hsnap _
    rcases List.mem_singleton.mp hsnap with rfl
    rfl
  · intro snap hsnap
    rcases List.mem_singleton.mp hsnap with rfl
    exact dominantFrequency_zero.symm

/-- The button phase preserves the producer invariant. -/
theorem goodState_buttonPhase (s : LoopState) (b : Bool) (h : GoodState s) :
    GoodState (buttonPhase s b) := by
  obtain ⟨h1, h2, h3, h4⟩ := h
  unfold buttonPhase
  split
  · refine ⟨?_, ?_, ?_, h4⟩
    · intro hrec
      dsimp only at hrec ⊢
      rw [hrec]
      rfl
    · intro snap hsnap
      rcases List.mem_append.mp hsnap with hmem | hone
      · exact h2 snap hmem
      · rcases List.mem_singleton.mp hone with rfl
        intro _
        rfl
    · intro snap hsnap
      rcases List.mem_append.mp hsnap with hmem | hone
      · exact h3 snap hmem
      · rcases List.mem_singleton.mp hone with rfl
        exact h4
  · exact ⟨h1, h2, h3, h4⟩

/-- The capture phase preserves the producer invariant. -/
theorem goodState_capturePhase (s : LoopState) (inp : LoopInput) (h : GoodState s) :
    GoodState (capturePhase s inp) := by
  obtain ⟨h1, h2, h3, h4⟩ := h
  unfold capturePhase
  split
  case isTrue hrec =>
    split
    · refine ⟨?_, ?_, ?_, by simp only [frameSnapshot]⟩
      · intro hr
        dsimp only at hr
        rw [hrec] at hr
      · intro snap hsnap
        rcases List.mem_append.mp hsnap with hmem | hone
        · exact h2 snap hmem
        · rcases List.mem_singleton.mp hone with rfl
          intro hfalse
          cases hfalse
      · intro snap hsnap
        rcases List.mem_append.mp hsnap with hmem | hone
        · exact h3 snap hmem
        · rcases List.mem_singleton.mp hone with rfl
          simp only [frameSnapshot]
    · refine ⟨?_, h2, h3, h4⟩
      intro hr
      dsimp only at hr
      rw [hrec] at hr
      cases hr
  case isFalse hrec => exact ⟨h1, h2, h3, h4⟩

/-- Every state reachable by the main loop satisfies the producer
invariant. -/
theorem goodState_run (l : List LoopInput) : GoodState (loopRun initLoopState l) :=
  foldl_invariant GoodState loopStep l
    (fun s inp hs => goodState_capturePhase _ _ (goodState_buttonPhase s inp.button hs))
    initLoopState goodState_init

/-- C7: from any reachable idle state, a button press (High→Low edge while
not recording) leaves the loop recording, with the published
`latestImpulse` cleared to `none` and the accumulated-byte progress at
zero — the accumulator was already reset when recording stopped, and
idling does not touch it. -/
theorem C7_idle_to_recording (l : List LoopInput) (s : LoopState)
    (hs : s = loopRun initLoopState l) (hidle : s.recording_enabled = false)
    (hprev : s.previous_button_state = true) :
    (buttonPhase s false).recording_enabled = true ∧
    (buttonPhase s false).published.latest_impulse = none ∧
    (buttonPhase s false).acc_index = 0 := by
  have hg : GoodState s := hs ▸ goodState_run l
  have hacc : s.acc_index = 0 := hg.1 hidle
  unfold buttonPhase
  rw [if_pos ⟨hprev, rfl⟩]
  refine ⟨?_, rfl, ?_⟩
  · simp [hidle]
  · simp [hidle, hacc]

/-- C7 witness: after a full `Idle → Recording → Idle` button cycle the
next press again clears the impulse and starts from an empty buffer. -/
theorem C7_idle_to_recording_witness :
    (buttonPhase (loopRun initLoopState cycleInputs) false).recording_enabled = true ∧
    (buttonPhase (loopRun initLoopState cycleInputs) false).published.latest_impulse = none ∧
    (buttonPhase (loopRun initLoopState cycleInputs) false).acc_index = 0 :=
  C7_idle_to_recording cycleInputs _ rfl (by rfl) (by rfl)

/-- C8: every snapshot ever stored in the shared cell is a whole snapshot
built by one constructor call: its `dominant_frequency` field is exactly
the dominant frequency of its own `magnitudes` field, so a reader that
captures any published handle never sees the magnitudes of one frame
paired with the dominant frequency of another. -/
theorem C8_snapshot_consistency (inps : List LoopInput) (snap : FFTData)
    (h : snap ∈ (loopRun initLoopState inps).history) :
    snap.dominant_frequency = dominantFrequency snap.magnitudes :=
  (goodState_run inps).2.2.1 snap h

/-- C8 witness: the initial snapshot is internally consistent. -/
theorem C8_snapshot_consistency_witness :
    initialFFTData.dominant_frequency = dominantFrequency initialFFTData.magnitudes :=
  C8_snapshot_consistency [] initialFFTData (List.mem_singleton_self _)

/-- C9: in every snapshot ever published (initial, button-transition and
per-frame), `is_recording = false` implies `latest_impulse = none`: an
impulse can only appear in a snapshot whose recording flag is `true`. -/
theorem C9_idle_snapshot_no_impulse (inps : List LoopInput) (snap : FFTData)
    (h : snap ∈ (loopRun initLoopState inps).history)
    (hrec : snap.is_recording = false) : snap.latest_impulse = none :=
  (goodState_run inps).2.1 snap h hrec

/-- C9 witness: the initial snapshot is not recording and carries no
impulse. -/
theorem C9_idle_snapshot_no_impulse_witness :
    initialFFTData.is_recording = false ∧ initialFFTData.latest_impulse = none :=
  ⟨rfl, C9_idle_snapshot_no_impulse [] initialFFTData (List.mem_singleton_self _) rfl⟩

/-! ## C10: raw bin-center frequencies in peak data -/

set_option maxHeartbeats 4000000 in
/-- The concrete event emitted for `testMags` at `now = 200` equals `evC`. -/
theorem mkImpulseEvent_testMags : mkImpulseEvent testMags 200 = evC := by decide

set_option maxHeartbeats 4000000 in
/-- C10: every `PeakData` inside an emitted `ImpulseData` carries the raw
bin-center frequency `index · FREQ_BIN_WIDTH`, with no sub-bin refinement;
and in the concrete emitted event for `testMags` the peaks entry at the
dominant bin carries a frequency different from the event's refined
`dominant_frequency`. -/
theorem C10_peak_raw_frequency :
    (∀ (s : ImpulseState) (mags : ℕ → ℚ) (now : ℕ) (ev : ImpulseData),
      (processFrameImpulse s mags now).2 = some ev →
      ∀ p ∈ ev.peaks, p.frequency = (p.index : ℚ) * FREQ_BIN_WIDTH) ∧
    (∃ ev : ImpulseData,
      (processFrameImpulse initImpulseState testMags 200).2 = some ev ∧
      ∃ p ∈ ev.peaks, p.index = (peakScan testMags).2 ∧
        p.frequency ≠ ev.dominant_frequency) := by
  constructor
  · intro s mags now ev hev
    by_cases hc : impulseTrigger s mags now
    · rw [processFrameImpulse_pos _ _ _ hc] at hev
      have hev2 : mkImpulseEvent mags now = ev := by simpa using hev
      subst hev2
      intro p hp
      simp only [mkImpulseEvent] at hp
      obtain ⟨idx, hidx, rfl⟩ := List.mem_map.mp hp
      rfl
    · rw [processFrameImpulse_neg _ _ _ hc] at hev
      cases hev
  · refine ⟨mkImpulseEvent testMags 200, ?_, ?_⟩
    · rw [processFrameImpulse_pos _ _ _ trigger_testMags]
    · rw [mkImpulseEvent_testMags]
      refine ⟨{ index := 100, frequency := 9375 / 4, magnitude := 1 / 100 }, ?_, ?_, ?_⟩
      · decide
      · decide
      · decide

set_option maxHeartbeats 4000000 in
/-- C10 witness: the universal raw-bin-frequency law applied to the peak
at the dominant bin of the concrete emitted event. -/
theorem C10_peak_raw_frequency_witness :
    (processFrameImpulse initImpulseState testMags 200).2 = some evC ∧
    ({ index := 100, frequency := 9375 / 4, magnitude := 1 / 100 } : PeakData) ∈ evC.peaks ∧
    (9375 / 4 : ℚ) = ((100 : ℕ) : ℚ) * FREQ_BIN_WIDTH := by
  have hproc : (processFrameImpulse initImpulseState testMags 200).2 = some evC := by
    rw [processFrameImpulse_pos _ _ _ trigger_testMags, mkImpulseEvent_testMags]
  have hmem : ({ index := 100, frequency := 9375 / 4, magnitude := 1 / 100 } : PeakData) ∈
      evC.peaks := by decide
  exact ⟨hproc, hmem,
    C10_peak_raw_frequency.1 initImpulseState testMags 200 evC hproc _ hmem⟩

end ESP32FFT
